import Mathlib

/-!
Verification of the katana compatibility shim.

Part 1 embeds the numba overloads in src/python/galois/numba/galois.py:
the PropertyGraph handle is modelled as a CSR store holding the
monotone edge-range-end array that the missing engine owns, and the
three overloads (len, nodes, edges) are translated from the source.

Part 2 embeds the metaclass in src/python/galois/util/template_type.py.
Python classes are modelled by their name, their method resolution order
(the names of the class and of all of its ancestors) and their class-level
dict; numpy dtype canonicalization is modelled by a partial map from raw
tags to canonical dtypes, none standing for the TypeError numpy raises on
an unknown tag; a Python dict is an insertion-ordered association list
where writing an existing key keeps its position and replaces its value.
-/

namespace Katana

/-- A Python range object: range(start, stop). -/
structure PyRange where
  start : Nat
  stop : Nat
deriving DecidableEq, Repr

/-- The sequence a Python range produces: start, start+1, ..., stop-1, empty when stop <= start. -/
def PyRange.toList (r : PyRange) : List Nat :=
  List.range' r.start (r.stop - r.start)

/-- The CSR topology store behind the opaque PropertyGraph handle.
Modelled from the spec: only the accessors num_nodes and edge_index of the
engine are visible from src/, the store itself is the monotone
edge-range-end array the spec describes in section 3. -/
structure PropertyGraph where
  edge_range_end : List Nat
deriving DecidableEq, Repr

/-- Modelled from the spec: the engine accessor num_nodes, the number of
entries of the edge-range-end array. -/
def num_nodes (g : PropertyGraph) : Nat :=
  g.edge_range_end.length

/-- Modelled from the spec: the engine accessor edge_index (the spec calls it
edge_range_end), reading entry n of the edge-range-end array. -/
def edge_index (g : PropertyGraph) (n : Nat) : Nat :=
  g.edge_range_end.getD n 0

/-- Modelled from the spec: edge_count is the last entry of the
edge-range-end array, 0 for an empty graph. -/
def edge_count (g : PropertyGraph) : Nat :=
  g.edge_range_end.getLastD 0

/-- Translated from overload_PropertyGraph_len in src/python/galois/numba/galois.py:
len(self) returns self.num_nodes(). -/
def lenPropertyGraph (g : PropertyGraph) : Nat :=
  num_nodes g

/-- Translated from overload_PropertyGraph_nodes in src/python/galois/numba/galois.py:
nodes() returns range(self.num_nodes()). -/
def nodes (g : PropertyGraph) : PyRange :=
  { start := 0, stop := num_nodes g }

/-- Translated from overload_PropertyGraph_edges in src/python/galois/numba/galois.py:
prev is 0 when n == 0 and self.edge_index(n - 1) otherwise, and the result
is range(prev, self.edge_index(n)). -/
def edges (g : PropertyGraph) (n : Nat) : PyRange :=
  { start := if n = 0 then 0 else edge_index g (n - 1),
    stop := edge_index g n }

/-- Written from the words of the spec, section 4.1: out_edges(node) is the
pair (begin, end) with begin = 0 if node == 0 else edge_range_end(node - 1)
and end = edge_range_end(node). -/
def out_edges_spec (g : PropertyGraph) (n : Nat) : Nat × Nat :=
  (if n = 0 then 0 else edge_index g (n - 1), edge_index g n)

/-- A valid CSR input: the edge-range-end array is monotonically
non-decreasing. -/
def ValidCSR (g : PropertyGraph) : Prop :=
  g.edge_range_end.Chain' (· ≤ ·)

instance (g : PropertyGraph) : Decidable (ValidCSR g) :=
  inferInstanceAs (Decidable (g.edge_range_end.Chain' (· ≤ ·)))

/-- The possible failure of the checked engine accessor. -/
inductive CSRError where
  | indexOutOfRange
deriving DecidableEq, Repr

/-- Modelled from the spec: the engine accessor edge_range_end with its
precondition check, section 4.1 — requires 0 <= node < node_count() and
raises IndexOutOfRange otherwise; only its callers are under src/. -/
def edge_range_end_checked (g : PropertyGraph) (n : Nat) : Except CSRError Nat :=
  if n < num_nodes g then Except.ok (edge_index g n) else Except.error CSRError.indexOutOfRange

/-- The canonical numeric dtypes the registry keys range over. -/
inductive DType where
  | int8 | int16 | int32 | int64
  | uint8 | uint16 | uint32 | uint64
  | float32 | float64
deriving DecidableEq, Repr

/-- A raw tag handed to np.dtype: either a dtype name string or an already
canonical dtype object. -/
inductive Tag where
  | str (s : String)
  | dtype (d : DType)
deriving DecidableEq, Repr

/-- The dtype named by a string, none when numpy would reject the name. -/
def dtypeOfString (s : String) : Option DType :=
  if s = "int8" then some DType.int8
  else if s = "int16" then some DType.int16
  else if s = "int32" then some DType.int32
  else if s = "int64" then some DType.int64
  else if s = "uint8" then some DType.uint8
  else if s = "uint16" then some DType.uint16
  else if s = "uint32" then some DType.uint32
  else if s = "uint64" then some DType.uint64
  else if s = "float32" then some DType.float32
  else if s = "float64" then some DType.float64
  else none

/-- np.dtype as used by TemplateType1: canonicalizes a raw tag, none when
numpy raises a TypeError on it. -/
def npDtype : Tag → Option DType
  | Tag.str s => dtypeOfString s
  | Tag.dtype d => some d

/-- A Python class, as far as instance checks and attribute lookup see it:
its name, its method resolution order (names of itself and its ancestors)
and its class-level dict mapping attribute names to value identifiers. -/
structure PyClass where
  name : String
  mro : List String
  dict : List (String × String)
deriving DecidableEq, Repr

/-- A Python object is an instance of its class. -/
structure PyObj where
  cls : PyClass
deriving DecidableEq, Repr

/-- The primitive isinstance check: the type is in the mro of the class of
the object. -/
def pyIsinstance (o : PyObj) (c : PyClass) : Bool :=
  c.name ∈ o.cls.mro

/-- The primitive issubclass check: the candidate ancestor is in the mro of
the subclass. -/
def pyIssubclass (sub c : PyClass) : Bool :=
  c.name ∈ sub.mro

/-- Writing key k in a Python dict: an existing entry keeps its position and
gets the new value, a new key is appended at the end. -/
def pyDictSet {κ β : Type} [DecidableEq κ] : List (κ × β) → κ → β → List (κ × β)
  | [], k, v => [(k, v)]
  | p :: rest, k, v =>
    if p.1 = k then (p.1, v) :: rest else p :: pyDictSet rest k v

/-- Reading a key from a Python dict, none standing for KeyError. -/
def pyDictFind {κ β : Type} [DecidableEq κ] (d : List (κ × β)) (k : κ) : Option β :=
  (d.find? (fun p => decide (p.1 = k))).map (fun p => p.2)

/-- d.update(e): write every entry of e into d in order. -/
def pyDictUpdate {κ β : Type} [DecidableEq κ] (d e : List (κ × β)) : List (κ × β) :=
  e.foldl (fun acc p => pyDictSet acc p.1 p.2) d

/-- The dict comprehension of TemplateType1.__new__: walk the items of the
instantiations mapping in order, canonicalize every key with np.dtype and
insert into a fresh dict; none when np.dtype raises on some key. -/
def dictCompNorm : List (Tag × PyClass) → List (DType × PyClass) →
    Option (List (DType × PyClass))
  | [], acc => some acc
  | (t, v) :: rest, acc =>
    match npDtype t with
    | none => none
    | some d => dictCompNorm rest (pyDictSet acc d v)

/-- The value the dict comprehension ends up storing under canonical key d:
the value of the last item of the mapping whose raw tag canonicalizes to d. -/
def lastValueFor (insts : List (Tag × PyClass)) (d : DType) : Option PyClass :=
  ((insts.filter (fun p => decide (npDtype p.1 = some d))).getLast?).map (fun p => p.2)

/-- The failures of the registry, named as the spec names them: StopIteration
on an empty instantiations mapping is EmptyRegistryError, the KeyError of
__getitem__ is UnknownVariantError, the TypeError np.dtype raises on a tag
it cannot canonicalize is invalidTag, and the TypeError of _init_stub is
DirectInstantiationError carrying the facade name and the message text. -/
inductive RegistryError where
  | emptyRegistry
  | unknownVariant
  | invalidTag
  | directInstantiation (typeName : String) (msg : String)
deriving DecidableEq, Repr

/-- The facade type TemplateType1.__new__ builds: its name, the normalized
insertion-ordered instantiations dict, the representative (first value of
that dict) and the class dict after attrs.update(representative dict).
The three names __instantiations__, __representative__ and __init__ that
the source writes into attrs afterwards are carried as the fields of this
structure. -/
structure TemplateFacade where
  name : String
  instantiations : List (DType × PyClass)
  representative : PyClass
  dict : List (String × String)
deriving DecidableEq, Repr

/-- Translated from TemplateType1.__new__ in
src/python/galois/util/template_type.py: normalize the instantiations
mapping through np.dtype into a fresh dict, take the first value as
representative (StopIteration, hence emptyRegistry, when there is none),
and update the remaining attrs with the class dict of the representative. -/
def TemplateType1_new (name : String) (attrs : List (String × String))
    (insts : List (Tag × PyClass)) : Except RegistryError TemplateFacade :=
  match dictCompNorm insts [] with
  | none => Except.error RegistryError.invalidTag
  | some normed =>
    match normed with
    | [] => Except.error RegistryError.emptyRegistry
    | (_, rep) :: _ =>
      Except.ok
        { name := name,
          instantiations := normed,
          representative := rep,
          dict := pyDictUpdate attrs rep.dict }

/-- Translated from make_template_type1 in
src/python/galois/util/template_type.py: TemplateType1(name, None,
dict(instantiations=instantiations)), so the attrs dict holds nothing but
the instantiations entry, which __new__ deletes. -/
def make_template_type1 (name : String) (insts : List (Tag × PyClass)) :
    Except RegistryError TemplateFacade :=
  TemplateType1_new name [] insts

/-- Translated from TemplateType1.__getitem__: canonicalize the subscript
with np.dtype and look it up in the instantiations dict; the KeyError of a
missing key is UnknownVariantError. -/
def TemplateType1_getitem (T : TemplateFacade) (item : Tag) :
    Except RegistryError PyClass :=
  match npDtype item with
  | none => Except.error RegistryError.invalidTag
  | some d =>
    match pyDictFind T.instantiations d with
    | some v => Except.ok v
    | none => Except.error RegistryError.unknownVariant

/-- Translated from TemplateType1.__instancecheck__: any isinstance over the
values of the instantiations dict. -/
def TemplateType1_instancecheck (T : TemplateFacade) (o : PyObj) : Bool :=
  T.instantiations.any (fun p => pyIsinstance o p.2)

/-- Translated from TemplateType1.__subclasscheck__: any issubclass over the
values of the instantiations dict. -/
def TemplateType1_subclasscheck (T : TemplateFacade) (c : PyClass) : Bool :=
  T.instantiations.any (fun p => pyIssubclass c p.2)

/-- The message _init_stub formats, with name = type(self).__name__. -/
def initStubMsg (name : String) : String :=
  name ++ " cannot be instantiated directly. Select a specific type with " ++
    name ++ "[...]."

/-- Translated from _init_stub inside TemplateType1.__new__: constructing the
facade runs the stub __init__, which raises a TypeError naming the facade
type whatever the arguments are. -/
def TemplateType1_call (T : TemplateFacade) (_args : List String) :
    Except RegistryError PyObj :=
  Except.error (RegistryError.directInstantiation T.name (initStubMsg T.name))

/-- Attribute lookup on the facade class: read its class dict. -/
def facadeGetattr (T : TemplateFacade) (a : String) : Option String :=
  pyDictFind T.dict a

/-- A concrete int32-specialized variant class, used by witnesses. -/
def classInt32 : PyClass :=
  { name := "GraphInt32",
    mro := ["GraphInt32", "GraphBase", "object"],
    dict := [("frobnicate", "GraphInt32.frobnicate"), ("scale", "GraphInt32.scale")] }

/-- A concrete int64-specialized variant class, used by witnesses. -/
def classInt64 : PyClass :=
  { name := "GraphInt64",
    mro := ["GraphInt64", "GraphBase", "object"],
    dict := [("frobnicate", "GraphInt64.frobnicate")] }

/-- A concrete class unrelated to every variant, used by witnesses. -/
def classUnrelated : PyClass :=
  { name := "Elephant", mro := ["Elephant", "object"], dict := [] }

/-- The facade built from the int32 and int64 variants, used by witnesses. -/
def facadeExample : TemplateFacade :=
  { name := "PropertyGraph",
    instantiations := [(DType.int32, classInt32), (DType.int64, classInt64)],
    representative := classInt32,
    dict := classInt32.dict }

/-- The facade built from two tags that canonicalize to the same dtype, used
by witnesses. -/
def facadeCollapsed : TemplateFacade :=
  { name := "PropertyGraph",
    instantiations := [(DType.int32, classInt64)],
    representative := classInt64,
    dict := classInt64.dict }

/-!
Helper lemmas for Part 1.
-/

theorem edge_index_mono_adj (g : PropertyGraph) (h : ValidCSR g) (k : Nat)
    (hk : k + 1 < num_nodes g) : edge_index g k ≤ edge_index g (k + 1) := by
  unfold ValidCSR at h
  unfold edge_index num_nodes at *
  rw [List.chain'_iff_get] at h
  have hk1 : k < g.edge_range_end.length := Nat.lt_of_succ_lt hk
  rw [List.getD_eq_getElem _ _ hk1, List.getD_eq_getElem _ _ hk]
  exact h k (by omega)

theorem sum_out_edges_sizes (g : PropertyGraph) (h : ValidCSR g) :
    ∀ m, m ≤ num_nodes g →
      (∑ n ∈ Finset.range m, ((edges g n).stop - (edges g n).start)) =
        (if m = 0 then 0 else edge_index g (m - 1)) := by
  intro m
  induction m with
  | zero => intro _; simp
  | succ k ih =>
    intro hm
    rw [Finset.sum_range_succ, ih (Nat.le_of_succ_le hm)]
    cases k with
    | zero => simp [edges]
    | succ j =>
      have hmono : edge_index g j ≤ edge_index g (j + 1) :=
        edge_index_mono_adj g h j hm
      have h1 : j + 1 ≠ 0 := Nat.succ_ne_zero j
      have h2 : j + 1 + 1 ≠ 0 := Nat.succ_ne_zero (j + 1)
      rw [if_neg h1, if_neg h2]
      simp only [edges, if_neg h1, Nat.add_sub_cancel]
      omega

theorem getD_length_sub_one :
    ∀ (l : List Nat), l ≠ [] → l.getD (l.length - 1) 0 = (l.getLast?).getD 0
  | [_], _ => rfl
  | a :: b :: t, _ => by
    have ih := getD_length_sub_one (b :: t) (List.cons_ne_nil b t)
    rw [List.getLast?_cons_cons]
    simp only [List.length_cons, Nat.add_sub_cancel] at *
    rw [List.getD_cons_succ]
    exact ih

/-- C1: for every node n with 0 <= n < node_count, the edges overload returns
the range whose bounds are exactly the pair the spec writes down, begin = 0
when n == 0 and edge_range_end(n - 1) otherwise, end = edge_range_end(n),
and when the bounds coincide the range is empty but well formed. -/
theorem edges_eq_out_edges_spec (g : PropertyGraph) (n : Nat) (h : n < num_nodes g) :
    edges g n = { start := (out_edges_spec g n).1, stop := (out_edges_spec g n).2 } ∧
    ((edges g n).start = (edges g n).stop → (edges g n).toList = []) := by
  refine ⟨rfl, fun he => ?_⟩
  simp [PyRange.toList, he]

theorem edges_eq_out_edges_spec_witness :
    1 < num_nodes { edge_range_end := [0, 2, 2] } ∧
    (edges { edge_range_end := [0, 2, 2] } 1 =
      { start := (out_edges_spec { edge_range_end := [0, 2, 2] } 1).1,
        stop := (out_edges_spec { edge_range_end := [0, 2, 2] } 1).2 } ∧
     ((edges { edge_range_end := [0, 2, 2] } 1).start =
        (edges { edge_range_end := [0, 2, 2] } 1).stop →
      (edges { edge_range_end := [0, 2, 2] } 1).toList = [])) :=
  ⟨by decide, edges_eq_out_edges_spec { edge_range_end := [0, 2, 2] } 1 (by decide)⟩

/-- C2: for every valid CSR input, every per-node edge range satisfies
begin <= end, the range of node 0 begins at 0, and the sizes of all the
per-node ranges sum to edge_count, so the ranges partition the edge array. -/
theorem out_edges_valid_csr (g : PropertyGraph) (h : ValidCSR g) :
    (∀ n, n < num_nodes g → (edges g n).start ≤ (edges g n).stop) ∧
    (edges g 0).start = 0 ∧
    (∑ n ∈ Finset.range (num_nodes g), ((edges g n).stop - (edges g n).start)) =
      edge_count g := by
  refine ⟨?_, by simp [edges], ?_⟩
  · intro n hn
    cases n with
    | zero => simp [edges]
    | succ k =>
      have hmono := edge_index_mono_adj g h k hn
      simpa [edges] using hmono
  · rw [sum_out_edges_sizes g h (num_nodes g) (Nat.le_refl _)]
    cases hg : g.edge_range_end with
    | nil => simp [num_nodes, edge_count, hg]
    | cons a t =>
      have hne : g.edge_range_end ≠ [] := by rw [hg]; exact List.cons_ne_nil a t
      have hlen : num_nodes g ≠ 0 := by
        simp [num_nodes, hg]
      rw [if_neg hlen]
      unfold edge_index edge_count num_nodes
      rw [getD_length_sub_one g.edge_range_end hne, List.getLastD_eq_getLast?]

theorem out_edges_valid_csr_witness :
    ValidCSR { edge_range_end := [0, 2, 2] } ∧
    ((∀ n, n < num_nodes { edge_range_end := [0, 2, 2] } →
        (edges { edge_range_end := [0, 2, 2] } n).start ≤
          (edges { edge_range_end := [0, 2, 2] } n).stop) ∧
     (edges { edge_range_end := [0, 2, 2] } 0).start = 0 ∧
     (∑ n ∈ Finset.range (num_nodes { edge_range_end := [0, 2, 2] }),
        ((edges { edge_range_end := [0, 2, 2] } n).stop -
          (edges { edge_range_end := [0, 2, 2] } n).start)) =
       edge_count { edge_range_end := [0, 2, 2] }) :=
  ⟨by simp [ValidCSR, List.chain'_cons], out_edges_valid_csr { edge_range_end := [0, 2, 2] }
    (by simp [ValidCSR, List.chain'_cons])⟩

/-- C7: calling the checked edge_range_end accessor with node == node_count
or any larger node fails with IndexOutOfRange and never returns a value, so
the out-of-range index is not clamped to a valid node. -/
theorem edge_range_end_checked_out_of_range (g : PropertyGraph) (n : Nat)
    (h : num_nodes g ≤ n) :
    edge_range_end_checked g n = Except.error CSRError.indexOutOfRange ∧
    ∀ v, edge_range_end_checked g n ≠ Except.ok v := by
  have hn : ¬ n < num_nodes g := Nat.not_lt.mpr h
  unfold edge_range_end_checked
  rw [if_neg hn]
  exact ⟨rfl, fun v hv => Except.noConfusion hv⟩

theorem edge_range_end_checked_out_of_range_witness :
    num_nodes { edge_range_end := [0, 2, 2] } ≤ 3 ∧
    (edge_range_end_checked { edge_range_end := [0, 2, 2] } 3 =
      Except.error CSRError.indexOutOfRange ∧
     ∀ v, edge_range_end_checked { edge_range_end := [0, 2, 2] } 3 ≠ Except.ok v) :=
  ⟨by decide, edge_range_end_checked_out_of_range { edge_range_end := [0, 2, 2] } 3 (by decide)⟩

/-- C9: the nodes overload produces a finite sequence of exactly node_count
values, the values 0, 1, ..., node_count - 1 in strictly increasing order;
the sequence is a pure function of the immutable store, so producing it
twice yields the same sequence. -/
theorem nodes_enumerates (g : PropertyGraph) :
    ((nodes g).toList.length = num_nodes g) ∧
    (∀ i : Nat, i ∈ (nodes g).toList ↔ i < num_nodes g) ∧
    List.Pairwise (· < ·) (nodes g).toList := by
  refine ⟨?_, ?_, ?_⟩
  · simp [nodes, PyRange.toList]
  · intro i
    simp only [nodes, PyRange.toList, Nat.sub_zero]
    rw [List.mem_range'_1]
    omega
  · simpa [nodes, PyRange.toList] using List.pairwise_lt_range' 0 (num_nodes g)

theorem nodes_enumerates_witness :
    ((nodes { edge_range_end := [0, 2, 2] }).toList.length =
       num_nodes { edge_range_end := [0, 2, 2] }) ∧
    (∀ i : Nat, i ∈ (nodes { edge_range_end := [0, 2, 2] }).toList ↔
       i < num_nodes { edge_range_end := [0, 2, 2] }) ∧
    List.Pairwise (· < ·) (nodes { edge_range_end := [0, 2, 2] }).toList :=
  nodes_enumerates { edge_range_end := [0, 2, 2] }

/-!
Helper lemmas for Part 2: the Python dict model.
-/

theorem pyDictFind_set_self {κ β : Type} [DecidableEq κ] :
    ∀ (d : List (κ × β)) (k : κ) (v : β), pyDictFind (pyDictSet d k v) k = some v
  | [], k, v => by simp [pyDictSet, pyDictFind, List.find?]
  | p :: rest, k, v => by
    by_cases hp : p.1 = k
    · simp [pyDictSet, hp, pyDictFind, List.find?]
    · simp only [pyDictSet, if_neg hp]
      unfold pyDictFind
      rw [List.find?_cons_of_neg _ (by simp [hp])]
      exact pyDictFind_set_self rest k v

theorem pyDictFind_set_ne {κ β : Type} [DecidableEq κ] :
    ∀ (d : List (κ × β)) (k k2 : κ) (v : β), k2 ≠ k →
      pyDictFind (pyDictSet d k v) k2 = pyDictFind d k2
  | [], k, k2, v, hne => by
    unfold pyDictSet pyDictFind
    rw [List.find?_cons_of_neg _ (by simp; exact fun h => hne h.symm)]
  | p :: rest, k, k2, v, hne => by
    by_cases hp : p.1 = k
    · simp only [pyDictSet, if_pos hp]
      unfold pyDictFind
      rw [List.find?_cons_of_neg _ (by simp; intro h; exact hne (h ▸ hp)),
        List.find?_cons_of_neg _ (by simp; intro h; exact hne (h ▸ hp))]
    · simp only [pyDictSet, if_neg hp]
      by_cases hp2 : p.1 = k2
      · unfold pyDictFind
        rw [List.find?_cons_of_pos _ (by simp [hp2]),
          List.find?_cons_of_pos _ (by simp [hp2])]
      · unfold pyDictFind
        rw [List.find?_cons_of_neg _ (by simp [hp2]),
          List.find?_cons_of_neg _ (by simp [hp2])]
        exact pyDictFind_set_ne rest k k2 v hne

theorem pyDictFind_none_of_not_mem {κ β : Type} [DecidableEq κ] :
    ∀ (d : List (κ × β)) (k : κ), (∀ p ∈ d, p.1 ≠ k) → pyDictFind d k = none
  | [], _, _ => rfl
  | p :: rest, k, h => by
    unfold pyDictFind
    rw [List.find?_cons_of_neg _ (by simp [h p (List.mem_cons_self p rest)])]
    exact pyDictFind_none_of_not_mem rest k (fun q hq => h q (List.mem_cons_of_mem p hq))

theorem pyDictFind_of_mem_nodup {κ β : Type} [DecidableEq κ] :
    ∀ (d : List (κ × β)) (k : κ) (v : β),
      (d.map Prod.fst).Nodup → (k, v) ∈ d → pyDictFind d k = some v
  | [], _, _, _, hm => absurd hm (List.not_mem_nil _)
  | p :: rest, k, v, hnd, hm => by
    rcases List.mem_cons.mp hm with heq | hm2
    · unfold pyDictFind
      rw [List.find?_cons_of_pos _ (by simp [heq.symm])]
      simp [heq.symm]
    · rw [List.map_cons] at hnd
      have hpair := List.nodup_cons.mp hnd
      have hne : p.1 ≠ k := by
        intro hk
        exact hpair.1 (hk ▸ List.mem_map_of_mem Prod.fst hm2)
      unfold pyDictFind
      rw [List.find?_cons_of_neg _ (by simp [hne])]
      exact pyDictFind_of_mem_nodup rest k v hpair.2 hm2

theorem pyDictSet_append {κ β : Type} [DecidableEq κ] :
    ∀ (d : List (κ × β)) (k : κ) (v : β), k ∉ d.map Prod.fst →
      pyDictSet d k v = d ++ [(k, v)]
  | [], _, _, _ => rfl
  | p :: rest, k, v, hk => by
    have hp : p.1 ≠ k := by
      intro h
      exact hk (h ▸ List.mem_map_of_mem Prod.fst (List.mem_cons_self p rest))
    simp only [pyDictSet, if_neg hp, List.cons_append, List.cons.injEq, true_and]
    exact pyDictSet_append rest k v (fun h => hk (List.mem_cons_of_mem _ h))

theorem pyDictUpdate_eq_append {κ β : Type} [DecidableEq κ] :
    ∀ (e d : List (κ × β)), (e.map Prod.fst).Nodup →
      (∀ k ∈ e.map Prod.fst, k ∉ d.map Prod.fst) →
      pyDictUpdate d e = d ++ e
  | [], d, _, _ => by simp [pyDictUpdate]
  | q :: rest, d, hnd, hdisj => by
    rw [List.map_cons] at hnd
    have hpair := List.nodup_cons.mp hnd
    unfold pyDictUpdate
    simp only [List.foldl_cons]
    have hq : q.1 ∉ d.map Prod.fst :=
      hdisj q.1 (List.mem_map_of_mem Prod.fst (List.mem_cons_self q rest))
    rw [pyDictSet_append d q.1 q.2 hq]
    have hnd2 : (rest.map Prod.fst).Nodup := hpair.2
    have hq2 : q.1 ∉ rest.map Prod.fst := hpair.1
    have hdisj2 : ∀ k ∈ rest.map Prod.fst, k ∉ (d ++ [(q.1, q.2)]).map Prod.fst := by
      intro k hk
      simp only [List.map_append, List.mem_append]
      rintro (hkd | hkq)
      · exact hdisj k (List.mem_map.mpr (by
          obtain ⟨p, hp, rfl⟩ := List.mem_map.mp hk
          exact ⟨p, List.mem_cons_of_mem q hp, rfl⟩)) hkd
      · simp at hkq
        exact hq2 (hkq ▸ hk)
    have := pyDictUpdate_eq_append rest (d ++ [(q.1, q.2)]) hnd2 hdisj2
    unfold pyDictUpdate at this
    rw [this]
    simp

theorem pyDictUpdate_nil {κ β : Type} [DecidableEq κ] (e : List (κ × β))
    (hnd : (e.map Prod.fst).Nodup) : pyDictUpdate [] e = e := by
  have := pyDictUpdate_eq_append e [] hnd (by simp)
  simpa using this

theorem pyDictSet_length {κ β : Type} [DecidableEq κ] :
    ∀ (d : List (κ × β)) (k : κ) (v : β), d.length ≤ (pyDictSet d k v).length
  | [], _, _ => by simp [pyDictSet]
  | p :: rest, k, v => by
    by_cases hp : p.1 = k
    · simp [pyDictSet, hp]
    · simp only [pyDictSet, if_neg hp, List.length_cons]
      exact Nat.succ_le_succ (pyDictSet_length rest k v)

theorem mem_keys_pyDictSet {κ β : Type} [DecidableEq κ] :
    ∀ (d : List (κ × β)) (k k2 : κ) (v : β),
      k2 ∈ (pyDictSet d k v).map Prod.fst → k2 = k ∨ k2 ∈ d.map Prod.fst
  | [], k, k2, v, h => by
    simp [pyDictSet] at h
    exact Or.inl h
  | p :: rest, k, k2, v, h => by
    by_cases hp : p.1 = k
    · simp only [pyDictSet, if_pos hp, List.map_cons, List.mem_cons] at h
      rcases h with h | h
      · exact Or.inr (by simp [h])
      · exact Or.inr (by simp [h])
    · simp only [pyDictSet, if_neg hp, List.map_cons, List.mem_cons] at h
      rcases h with h | h
      · exact Or.inr (by simp [h])
      · rcases mem_keys_pyDictSet rest k k2 v h with h2 | h2
        · exact Or.inl h2
        · exact Or.inr (by simp [h2])

theorem pyDictSet_nodup {κ β : Type} [DecidableEq κ] :
    ∀ (d : List (κ × β)) (k : κ) (v : β),
      (d.map Prod.fst).Nodup → ((pyDictSet d k v).map Prod.fst).Nodup
  | [], _, _, _ => by simp [pyDictSet]
  | p :: rest, k, v, hnd => by
    rw [List.map_cons] at hnd
    have hpair := List.nodup_cons.mp hnd
    by_cases hp : p.1 = k
    · simp only [pyDictSet, if_pos hp, List.map_cons]
      exact List.nodup_cons.mpr hpair
    · simp only [pyDictSet, if_neg hp, List.map_cons]
      refine List.nodup_cons.mpr ⟨?_, pyDictSet_nodup rest k v hpair.2⟩
      intro hmem
      rcases mem_keys_pyDictSet rest k p.1 v hmem with h2 | h2
      · exact hp h2
      · exact hpair.1 h2

theorem pyDictSet_head {κ β : Type} [DecidableEq κ] (a : κ × β) (rest : List (κ × β))
    (k : κ) (v : β) :
    ∃ w, (pyDictSet (a :: rest) k v).head? = some (a.1, w) := by
  unfold pyDictSet
  by_cases ha : a.1 = k
  · rw [if_pos ha]
    exact ⟨v, rfl⟩
  · rw [if_neg ha]
    exact ⟨a.2, rfl⟩

theorem pyDictFind_mem {κ β : Type} [DecidableEq κ] (d : List (κ × β)) (k : κ) (v : β)
    (h : pyDictFind d k = some v) : (k, v) ∈ d := by
  unfold pyDictFind at h
  cases hf : d.find? (fun p => decide (p.1 = k)) with
  | none => rw [hf] at h; simp at h
  | some q =>
    rw [hf] at h
    have hq := List.find?_some hf
    have hqm := List.mem_of_find?_eq_some hf
    simp at hq h
    obtain ⟨q1, q2⟩ := q
    simp at hq h
    subst hq
    subst h
    exact hqm

theorem filter_key_length_le_one {κ β : Type} [DecidableEq κ] :
    ∀ (d : List (κ × β)) (k : κ), (d.map Prod.fst).Nodup →
      (d.filter (fun p => decide (p.1 = k))).length ≤ 1
  | [], _, _ => by simp
  | p :: rest, k, hnd => by
    rw [List.map_cons] at hnd
    have hpair := List.nodup_cons.mp hnd
    rw [List.filter_cons]
    by_cases hp : p.1 = k
    · rw [if_pos (by simpa using hp)]
      have hnil : rest.filter (fun p2 => decide (p2.1 = k)) = [] := by
        rw [List.filter_eq_nil_iff]
        intro a ha
        simp only [decide_eq_true_eq]
        intro hak
        exact hpair.1 (hp ▸ hak ▸ List.mem_map_of_mem Prod.fst ha)
      rw [hnil]
      simp
    · rw [if_neg (by simpa using hp)]
      exact filter_key_length_le_one rest k hpair.2

theorem filter_key_length_pos {κ β : Type} [DecidableEq κ] (d : List (κ × β)) (k : κ) (v : β)
    (h : (k, v) ∈ d) : 0 < (d.filter (fun p => decide (p.1 = k))).length := by
  have hmem : (k, v) ∈ d.filter (fun p => decide (p.1 = k)) :=
    List.mem_filter.mpr ⟨h, by simp⟩
  exact List.length_pos.mpr (List.ne_nil_of_mem hmem)

theorem dictCompNorm_normalizes :
    ∀ (insts : List (Tag × PyClass)) (acc D : List (DType × PyClass)),
      dictCompNorm insts acc = some D → ∀ p ∈ insts, npDtype p.1 ≠ none
  | [], _, _, _ => by
    intro p hp
    exact absurd hp (List.not_mem_nil p)
  | (t, v) :: rest, acc, D, h => by
    intro p hp
    unfold dictCompNorm at h
    cases ht : npDtype t with
    | none => rw [ht] at h; simp at h
    | some d0 =>
      rw [ht] at h
      rcases List.mem_cons.mp hp with heq | hp2
      · rw [heq, ht]
        simp
      · exact dictCompNorm_normalizes rest _ D h p hp2

theorem dictCompNorm_exists :
    ∀ (insts : List (Tag × PyClass)) (acc : List (DType × PyClass)),
      (∀ p ∈ insts, npDtype p.1 ≠ none) →
      ∃ D, dictCompNorm insts acc = some D ∧ acc.length ≤ D.length
  | [], acc, _ => ⟨acc, rfl, Nat.le_refl _⟩
  | (t, v) :: rest, acc, h => by
    cases ht : npDtype t with
    | none => exact absurd ht (h (t, v) (List.mem_cons_self _ _))
    | some d0 =>
      obtain ⟨D, hD, hlen⟩ := dictCompNorm_exists rest (pyDictSet acc d0 v)
        (fun p hp => h p (List.mem_cons_of_mem _ hp))
      refine ⟨D, ?_, Nat.le_trans (pyDictSet_length acc d0 v) hlen⟩
      unfold dictCompNorm
      rw [ht]
      exact hD

theorem dictCompNorm_nodup :
    ∀ (insts : List (Tag × PyClass)) (acc D : List (DType × PyClass)),
      dictCompNorm insts acc = some D → (acc.map Prod.fst).Nodup →
      (D.map Prod.fst).Nodup
  | [], acc, D, h, hacc => by
    injection h with h
    rw [← h]
    exact hacc
  | (t, v) :: rest, acc, D, h, hacc => by
    unfold dictCompNorm at h
    cases ht : npDtype t with
    | none => rw [ht] at h; simp at h
    | some d0 =>
      rw [ht] at h
      exact dictCompNorm_nodup rest _ D h (pyDictSet_nodup acc d0 v hacc)

theorem dictCompNorm_head_key :
    ∀ (insts : List (Tag × PyClass)) (acc D : List (DType × PyClass)) (q : DType × PyClass),
      dictCompNorm insts acc = some D → acc.head? = some q →
      ∃ w, D.head? = some (q.1, w)
  | [], acc, D, q, h, hacc => by
    injection h with h
    rw [← h, hacc]
    exact ⟨q.2, rfl⟩
  | (t, v) :: rest, acc, D, q, h, hacc => by
    unfold dictCompNorm at h
    cases ht : npDtype t with
    | none => rw [ht] at h; simp at h
    | some d0 =>
      rw [ht] at h
      cases acc with
      | nil => simp at hacc
      | cons a atail =>
        have ha : a = q := by
          simpa using hacc
        obtain ⟨w1, hw1⟩ := pyDictSet_head a atail d0 v
        obtain ⟨w, hw⟩ := dictCompNorm_head_key rest _ D (a.1, w1) h hw1
        exact ⟨w, by rw [hw, ha]⟩

theorem lastValueFor_cons_pos (t : Tag) (d : DType) (v : PyClass)
    (rest : List (Tag × PyClass)) (ht : npDtype t = some d) :
    lastValueFor ((t, v) :: rest) d = some ((lastValueFor rest d).getD v) := by
  unfold lastValueFor
  rw [List.filter_cons, if_pos (by simpa using ht)]
  cases hrest : rest.filter (fun p => decide (npDtype p.1 = some d)) with
  | nil => rfl
  | cons q qs =>
    rw [List.getLast?_cons_cons]
    rfl

theorem lastValueFor_cons_neg (t : Tag) (d : DType) (v : PyClass)
    (rest : List (Tag × PyClass)) (ht : ¬ npDtype t = some d) :
    lastValueFor ((t, v) :: rest) d = lastValueFor rest d := by
  unfold lastValueFor
  rw [List.filter_cons, if_neg (by simpa using ht)]

theorem dictCompNorm_find_none :
    ∀ (insts : List (Tag × PyClass)) (acc D : List (DType × PyClass)) (d : DType),
      dictCompNorm insts acc = some D → lastValueFor insts d = none →
      pyDictFind D d = pyDictFind acc d
  | [], acc, D, d, h, _ => by
    injection h with h
    rw [← h]
  | (t, v) :: rest, acc, D, d, h, hl => by
    unfold dictCompNorm at h
    cases ht : npDtype t with
    | none => rw [ht] at h; simp at h
    | some d0 =>
      rw [ht] at h
      by_cases htd : npDtype t = some d
      · rw [lastValueFor_cons_pos t d v rest htd] at hl
        simp at hl
      · rw [lastValueFor_cons_neg t d v rest htd] at hl
        have hdne : d ≠ d0 := by
          intro he
          exact htd (by rw [ht, he])
        rw [dictCompNorm_find_none rest _ D d h hl]
        exact pyDictFind_set_ne acc d0 d v hdne

theorem dictCompNorm_find_some :
    ∀ (insts : List (Tag × PyClass)) (acc D : List (DType × PyClass)) (d : DType)
      (w : PyClass),
      dictCompNorm insts acc = some D → lastValueFor insts d = some w →
      pyDictFind D d = some w
  | [], _, _, _, _, _, hl => by
    simp [lastValueFor] at hl
  | (t, v) :: rest, acc, D, d, w, h, hl => by
    unfold dictCompNorm at h
    cases ht : npDtype t with
    | none => rw [ht] at h; simp at h
    | some d0 =>
      rw [ht] at h
      by_cases htd : npDtype t = some d
      · have hd0 : d0 = d := by
          rw [ht] at htd
          exact Option.some.inj htd
        subst hd0
        rw [lastValueFor_cons_pos t d0 v rest htd] at hl
        cases hlr : lastValueFor rest d0 with
        | none =>
          rw [hlr] at hl
          simp at hl
          rw [← hl]
          rw [dictCompNorm_find_none rest _ D d0 h hlr]
          exact pyDictFind_set_self acc d0 v
        | some w2 =>
          rw [hlr] at hl
          simp at hl
          rw [← hl]
          exact dictCompNorm_find_some rest _ D d0 w2 h hlr
      · rw [lastValueFor_cons_neg t d v rest htd] at hl
        exact dictCompNorm_find_some rest _ D d w h hl

theorem dictCompNorm_cons_step (t : Tag) (v : PyClass) (rest : List (Tag × PyClass))
    (acc : List (DType × PyClass)) (d : DType) (ht : npDtype t = some d) :
    dictCompNorm ((t, v) :: rest) acc = dictCompNorm rest (pyDictSet acc d v) := by
  simp only [dictCompNorm, ht]

theorem make_ok_destruct (name : String) (insts : List (Tag × PyClass)) (T : TemplateFacade)
    (h : make_template_type1 name insts = Except.ok T) :
    ∃ k0 tl, dictCompNorm insts [] = some ((k0, T.representative) :: tl) ∧
      T.instantiations = (k0, T.representative) :: tl ∧
      T.name = name ∧
      T.dict = pyDictUpdate [] T.representative.dict := by
  unfold make_template_type1 TemplateType1_new at h
  cases hD : dictCompNorm insts [] with
  | none =>
    rw [hD] at h
    simp at h
  | some D =>
    rw [hD] at h
    cases D with
    | nil => simp at h
    | cons q tl =>
      obtain ⟨k0, rep⟩ := q
      simp only [Except.ok.injEq] at h
      cases h
      exact ⟨k0, tl, rfl, rfl, rfl, rfl⟩

/-- C3: for every registry built from at least one variant, the facade
isinstance check is true iff the value is an instance of at least one
registered variant, the facade issubclass check is true iff the candidate
is a subtype of at least one registered variant, both a logical OR across
all variants, and an object unrelated to every variant yields false. -/
theorem facade_or_semantics (name : String) (insts : List (Tag × PyClass))
    (T : TemplateFacade) (h : make_template_type1 name insts = Except.ok T) :
    (∀ o : PyObj, TemplateType1_instancecheck T o = true ↔
       ∃ c ∈ T.instantiations.map Prod.snd, pyIsinstance o c = true) ∧
    (∀ c : PyClass, TemplateType1_subclasscheck T c = true ↔
       ∃ c2 ∈ T.instantiations.map Prod.snd, pyIssubclass c c2 = true) ∧
    (∀ o : PyObj, (∀ c ∈ T.instantiations.map Prod.snd, pyIsinstance o c = false) →
       TemplateType1_instancecheck T o = false) := by
  refine ⟨?_, ?_, ?_⟩
  · intro o
    unfold TemplateType1_instancecheck
    rw [List.any_eq_true]
    constructor
    · rintro ⟨p, hp, hpi⟩
      exact ⟨p.2, List.mem_map_of_mem Prod.snd hp, hpi⟩
    · rintro ⟨c, hc, hci⟩
      obtain ⟨p, hp, hpc⟩ := List.mem_map.mp hc
      exact ⟨p, hp, by rw [hpc]; exact hci⟩
  · intro c
    unfold TemplateType1_subclasscheck
    rw [List.any_eq_true]
    constructor
    · rintro ⟨p, hp, hpi⟩
      exact ⟨p.2, List.mem_map_of_mem Prod.snd hp, hpi⟩
    · rintro ⟨c2, hc2, hci⟩
      obtain ⟨p, hp, hpc⟩ := List.mem_map.mp hc2
      exact ⟨p, hp, by rw [hpc]; exact hci⟩
  · intro o hall
    unfold TemplateType1_instancecheck
    rw [List.any_eq_false]
    intro p hp
    rw [hall p.2 (List.mem_map_of_mem Prod.snd hp)]
    simp

theorem facade_or_semantics_witness :
    make_template_type1 "PropertyGraph"
      [(Tag.str "int32", classInt32), (Tag.str "int64", classInt64)] =
      Except.ok facadeExample ∧
    ((∀ o : PyObj, TemplateType1_instancecheck facadeExample o = true ↔
        ∃ c ∈ facadeExample.instantiations.map Prod.snd, pyIsinstance o c = true) ∧
     (∀ c : PyClass, TemplateType1_subclasscheck facadeExample c = true ↔
        ∃ c2 ∈ facadeExample.instantiations.map Prod.snd, pyIssubclass c c2 = true) ∧
     (∀ o : PyObj,
        (∀ c ∈ facadeExample.instantiations.map Prod.snd, pyIsinstance o c = false) →
        TemplateType1_instancecheck facadeExample o = false)) :=
  ⟨rfl, facade_or_semantics "PropertyGraph"
    [(Tag.str "int32", classInt32), (Tag.str "int64", classInt64)] facadeExample rfl⟩

/-- C4: for every built registry and every tag that canonicalizes to dtype d,
subscription returns exactly the concrete type registered under the
canonical key d, and fails with UnknownVariantError when no entry has key d. -/
theorem resolve_canonical_lookup (name : String) (insts : List (Tag × PyClass))
    (T : TemplateFacade) (tag : Tag) (d : DType)
    (h : make_template_type1 name insts = Except.ok T)
    (ht : npDtype tag = some d) :
    (∀ v : PyClass, (d, v) ∈ T.instantiations →
       TemplateType1_getitem T tag = Except.ok v) ∧
    ((∀ p ∈ T.instantiations, p.1 ≠ d) →
       TemplateType1_getitem T tag = Except.error RegistryError.unknownVariant) := by
  obtain ⟨k0, tl, hD, hinst, hname, hdict⟩ := make_ok_destruct name insts T h
  have hnodup : (T.instantiations.map Prod.fst).Nodup := by
    rw [hinst]
    exact dictCompNorm_nodup insts [] _ hD (by simp)
  constructor
  · intro v hv
    simp only [TemplateType1_getitem, ht]
    rw [pyDictFind_of_mem_nodup T.instantiations d v hnodup hv]
  · intro hnone
    simp only [TemplateType1_getitem, ht]
    rw [pyDictFind_none_of_not_mem T.instantiations d hnone]

theorem resolve_canonical_lookup_witness :
    make_template_type1 "PropertyGraph"
      [(Tag.str "int32", classInt32), (Tag.str "int64", classInt64)] =
      Except.ok facadeExample ∧
    npDtype (Tag.str "int32") = some DType.int32 ∧
    ((∀ v : PyClass, (DType.int32, v) ∈ facadeExample.instantiations →
        TemplateType1_getitem facadeExample (Tag.str "int32") = Except.ok v) ∧
     ((∀ p ∈ facadeExample.instantiations, p.1 ≠ DType.int32) →
        TemplateType1_getitem facadeExample (Tag.str "int32") =
          Except.error RegistryError.unknownVariant)) :=
  ⟨rfl, rfl, resolve_canonical_lookup "PropertyGraph"
    [(Tag.str "int32", classInt32), (Tag.str "int64", classInt64)]
    facadeExample (Tag.str "int32") DType.int32 rfl rfl⟩

/-- C5: for every built facade, calling the facade directly with any
arguments fails with DirectInstantiationError; the error carries the name
of the offending facade type — the message starts with that name — and its
text directs the caller to select a concrete variant by subscription. -/
theorem facade_call_raises (name : String) (insts : List (Tag × PyClass))
    (T : TemplateFacade) (h : make_template_type1 name insts = Except.ok T) :
    ∀ args : List String,
      TemplateType1_call T args =
        Except.error (RegistryError.directInstantiation T.name (initStubMsg T.name)) ∧
      T.name = name ∧
      (∃ rest : String, initStubMsg T.name = T.name ++ rest) ∧
      initStubMsg T.name =
        T.name ++ " cannot be instantiated directly. Select a specific type with " ++
          T.name ++ "[...]." := by
  intro args
  obtain ⟨k0, tl, hD, hinst, hname, hdict⟩ := make_ok_destruct name insts T h
  refine ⟨rfl, hname, ?_, rfl⟩
  exact ⟨" cannot be instantiated directly. Select a specific type with " ++
    T.name ++ "[...].", by simp [initStubMsg, String.append_assoc]⟩

theorem facade_call_raises_witness :
    make_template_type1 "PropertyGraph"
      [(Tag.str "int32", classInt32), (Tag.str "int64", classInt64)] =
      Except.ok facadeExample ∧
    (TemplateType1_call facadeExample [] =
       Except.error (RegistryError.directInstantiation facadeExample.name
         (initStubMsg facadeExample.name)) ∧
     facadeExample.name = "PropertyGraph" ∧
     (∃ rest : String, initStubMsg facadeExample.name = facadeExample.name ++ rest) ∧
     initStubMsg facadeExample.name =
       facadeExample.name ++
         " cannot be instantiated directly. Select a specific type with " ++
         facadeExample.name ++ "[...].") :=
  ⟨rfl, facade_call_raises "PropertyGraph"
    [(Tag.str "int32", classInt32), (Tag.str "int64", classInt64)] facadeExample rfl []⟩

/-- C6: building from a mapping with zero entries fails with
EmptyRegistryError, while building from a mapping with at least one entry
(every tag being a dtype numpy accepts) succeeds. -/
theorem build_empty_fails_nonempty_succeeds (name : String)
    (insts : List (Tag × PyClass)) (hne : insts ≠ [])
    (hnorm : ∀ p ∈ insts, npDtype p.1 ≠ none) :
    make_template_type1 name [] = Except.error RegistryError.emptyRegistry ∧
    ∃ T, make_template_type1 name insts = Except.ok T := by
  refine ⟨rfl, ?_⟩
  cases insts with
  | nil => cases hne rfl
  | cons p rest =>
    obtain ⟨t, v⟩ := p
    cases ht : npDtype t with
    | none => exact absurd ht (hnorm (t, v) (List.mem_cons_self _ _))
    | some d0 =>
      obtain ⟨D, hD, hlen⟩ := dictCompNorm_exists rest (pyDictSet [] d0 v)
        (fun q hq => hnorm q (List.mem_cons_of_mem _ hq))
      cases D with
      | nil => simp [pyDictSet] at hlen
      | cons q tl =>
        obtain ⟨q1, q2⟩ := q
        refine ⟨{ name := name,
                  instantiations := (q1, q2) :: tl,
                  representative := q2,
                  dict := pyDictUpdate [] q2.dict }, ?_⟩
        unfold make_template_type1 TemplateType1_new
        have hstep : dictCompNorm ((t, v) :: rest) [] = some ((q1, q2) :: tl) := by
          unfold dictCompNorm
          rw [ht]
          exact hD
        rw [hstep]

theorem build_empty_fails_nonempty_succeeds_witness :
    [(Tag.str "int32", classInt32)] ≠ ([] : List (Tag × PyClass)) ∧
    (∀ p ∈ [(Tag.str "int32", classInt32)], npDtype p.1 ≠ none) ∧
    (make_template_type1 "PropertyGraph" [] = Except.error RegistryError.emptyRegistry ∧
     ∃ T, make_template_type1 "PropertyGraph" [(Tag.str "int32", classInt32)] =
       Except.ok T) :=
  ⟨by simp, by simp [npDtype, dtypeOfString], build_empty_fails_nonempty_succeeds
    "PropertyGraph" [(Tag.str "int32", classInt32)] (by simp)
    (by simp [npDtype, dtypeOfString])⟩

/-- C8: for every registry built from at least one entry whose canonical
keys are pairwise distinct, the representative is the value of the first
entry of the supplied mapping, and every attribute of the facade class dict
resolves to the class-level surface of the representative, exposed as if it
were the facade type itself. -/
theorem representative_first_and_forwarding
    (name : String) (t0 : Tag) (v0 : PyClass) (rest : List (Tag × PyClass))
    (T : TemplateFacade)
    (h : make_template_type1 name ((t0, v0) :: rest) = Except.ok T)
    (hkeys : (((t0, v0) :: rest).map (fun p => npDtype p.1)).Nodup)
    (hrepd : (v0.dict.map Prod.fst).Nodup) :
    T.representative = v0 ∧
    ∀ a : String, facadeGetattr T a = pyDictFind v0.dict a := by
  obtain ⟨k0, tl, hD, hinst, hname, hdict⟩ := make_ok_destruct name _ T h
  have ht0 : npDtype t0 ≠ none :=
    dictCompNorm_normalizes _ [] _ hD (t0, v0) (List.mem_cons_self _ _)
  cases ht : npDtype t0 with
  | none => exact absurd ht ht0
  | some d0 =>
    rw [List.map_cons] at hkeys
    have hkpair := List.nodup_cons.mp hkeys
    have hrestnil : rest.filter (fun p => decide (npDtype p.1 = some d0)) = [] := by
      rw [List.filter_eq_nil_iff]
      intro p hp
      simp only [decide_eq_true_eq]
      intro hpd
      exact hkpair.1 (by
        rw [ht, ← hpd]
        exact List.mem_map_of_mem (fun q => npDtype q.1) hp)
    have hlast : lastValueFor ((t0, v0) :: rest) d0 = some v0 := by
      rw [lastValueFor_cons_pos t0 d0 v0 rest ht]
      have hnone : lastValueFor rest d0 = none := by
        unfold lastValueFor
        rw [hrestnil]
        rfl
      rw [hnone]
      rfl
    have hfind : pyDictFind T.instantiations d0 = some v0 := by
      rw [hinst]
      exact dictCompNorm_find_some _ [] _ d0 v0 hD hlast
    have hDstep : dictCompNorm rest (pyDictSet [] d0 v0) =
        some ((k0, T.representative) :: tl) := by
      have h2 := hD
      unfold dictCompNorm at h2
      rw [ht] at h2
      exact h2
    obtain ⟨w, hw⟩ := dictCompNorm_head_key rest _ _ (d0, v0) hDstep rfl
    simp only [List.head?_cons, Option.some.injEq, Prod.mk.injEq] at hw
    have hfind2 : pyDictFind T.instantiations d0 = some T.representative := by
      rw [hinst]
      unfold pyDictFind
      rw [List.find?_cons_of_pos _ (by simp [hw.1])]
      rfl
    have hrep : T.representative = v0 := by
      rw [hfind2] at hfind
      exact Option.some.inj hfind
    refine ⟨hrep, ?_⟩
    intro a
    unfold facadeGetattr
    rw [hdict, hrep, pyDictUpdate_nil v0.dict hrepd]

theorem representative_first_and_forwarding_witness :
    make_template_type1 "PropertyGraph"
      ((Tag.str "int32", classInt32) :: [(Tag.str "int64", classInt64)]) =
      Except.ok facadeExample ∧
    (((Tag.str "int32", classInt32) :: [(Tag.str "int64", classInt64)]).map
      (fun p => npDtype p.1)).Nodup ∧
    (classInt32.dict.map Prod.fst).Nodup ∧
    (facadeExample.representative = classInt32 ∧
     ∀ a : String, facadeGetattr facadeExample a = pyDictFind classInt32.dict a) :=
  ⟨rfl, by decide, by decide, representative_first_and_forwarding "PropertyGraph"
    (Tag.str "int32") classInt32 [(Tag.str "int64", classInt64)] facadeExample
    rfl (by decide) (by decide)⟩

/-- C10: registry construction canonicalizes raw tags before insertion: when
two distinct raw tags canonicalize to the same dtype d (and no other entry
does), the built registry holds a single entry for d whose value is the
later of the two supplied types, subscription by either raw tag returns
that later type, and when those entries open the mapping the representative
is the first value after normalization and collapse, namely that later
type. -/
theorem normalization_collapse
    (name : String) (pre mid post : List (Tag × PyClass)) (t1 t2 : Tag)
    (A B : PyClass) (d : DType) (T : TemplateFacade)
    (h : make_template_type1 name (pre ++ (t1, A) :: mid ++ (t2, B) :: post) =
      Except.ok T)
    (ht12 : t1 ≠ t2)
    (h1 : npDtype t1 = some d) (h2 : npDtype t2 = some d)
    (hpre : ∀ p ∈ pre, npDtype p.1 ≠ some d)
    (hmid : ∀ p ∈ mid, npDtype p.1 ≠ some d)
    (hpost : ∀ p ∈ post, npDtype p.1 ≠ some d) :
    (T.instantiations.filter (fun p => decide (p.1 = d))).length = 1 ∧
    TemplateType1_getitem T t1 = Except.ok B ∧
    TemplateType1_getitem T t2 = Except.ok B ∧
    (pre = [] → T.representative = B) := by
  obtain ⟨k0, tl, hD, hinst, hname, hdict⟩ := make_ok_destruct name _ T h
  have hfp : pre.filter (fun p => decide (npDtype p.1 = some d)) = [] := by
    rw [List.filter_eq_nil_iff]
    intro p hp
    simpa using hpre p hp
  have hfm : mid.filter (fun p => decide (npDtype p.1 = some d)) = [] := by
    rw [List.filter_eq_nil_iff]
    intro p hp
    simpa using hmid p hp
  have hfpo : post.filter (fun p => decide (npDtype p.1 = some d)) = [] := by
    rw [List.filter_eq_nil_iff]
    intro p hp
    simpa using hpost p hp
  have hfil : (pre ++ (t1, A) :: mid ++ (t2, B) :: post).filter
      (fun p => decide (npDtype p.1 = some d)) = [(t1, A), (t2, B)] := by
    simp [List.filter_append, List.filter_cons, h1, h2, hfp, hfm, hfpo]
  have hlast : lastValueFor (pre ++ (t1, A) :: mid ++ (t2, B) :: post) d = some B := by
    unfold lastValueFor
    rw [hfil]
    rfl
  have hfind : pyDictFind T.instantiations d = some B := by
    rw [hinst]
    exact dictCompNorm_find_some _ [] _ d B hD hlast
  have hnodup : (T.instantiations.map Prod.fst).Nodup := by
    rw [hinst]
    exact dictCompNorm_nodup _ [] _ hD (by simp)
  refine ⟨?_, ?_, ?_, ?_⟩
  · have hle := filter_key_length_le_one T.instantiations d hnodup
    have hpos := filter_key_length_pos T.instantiations d B
      (pyDictFind_mem T.instantiations d B hfind)
    omega
  · simp only [TemplateType1_getitem, h1]
    rw [hfind]
  · simp only [TemplateType1_getitem, h2]
    rw [hfind]
  · intro hpre0
    subst hpre0
    simp only [List.nil_append] at hD
    rw [List.cons_append, dictCompNorm_cons_step t1 A _ [] d h1] at hD
    obtain ⟨w, hw⟩ := dictCompNorm_head_key _ _ _ (d, A) hD rfl
    simp only [List.head?_cons, Option.some.injEq, Prod.mk.injEq] at hw
    have hfind2 : pyDictFind T.instantiations d = some T.representative := by
      rw [hinst]
      unfold pyDictFind
      rw [List.find?_cons_of_pos _ (by simp [hw.1])]
      rfl
    rw [hfind2] at hfind
    exact Option.some.inj hfind

theorem normalization_collapse_witness :
    make_template_type1 "PropertyGraph"
      ([] ++ (Tag.str "int32", classInt32) :: [] ++
        (Tag.dtype DType.int32, classInt64) :: []) = Except.ok facadeCollapsed ∧
    Tag.str "int32" ≠ Tag.dtype DType.int32 ∧
    npDtype (Tag.str "int32") = some DType.int32 ∧
    npDtype (Tag.dtype DType.int32) = some DType.int32 ∧
    ((facadeCollapsed.instantiations.filter
       (fun p => decide (p.1 = DType.int32))).length = 1 ∧
     TemplateType1_getitem facadeCollapsed (Tag.str "int32") = Except.ok classInt64 ∧
     TemplateType1_getitem facadeCollapsed (Tag.dtype DType.int32) =
       Except.ok classInt64 ∧
     (([] : List (Tag × PyClass)) = [] → facadeCollapsed.representative = classInt64)) :=
  ⟨rfl, by decide, rfl, rfl, normalization_collapse "PropertyGraph" [] [] []
    (Tag.str "int32") (Tag.dtype DType.int32) classInt32 classInt64 DType.int32
    facadeCollapsed rfl (by decide) rfl rfl (by simp) (by simp) (by simp)⟩

end Katana
